import Mathlib

/-!
Verification of the remote-resource fetch/cache/pagination engine of
`sources/manager_download.py` (class `DownloadManager`), via a shallow
embedding in Lean.

The embedding models:
  - JSON-like response values (`J`, with mutually inductive lists and
    field lists so that all traversals are structural recursions),
  - the process-wide resource cache (`Cache`, an insertion-ordered
    association list mirroring a Python `dict`),
  - plain-resource resolution (`get_remote_resource`),
  - shutdown draining (`close_remote_resources`),
  - the GraphQL query engine with 502 retry (`fetch_graphql_query`),
  - the pagination search (`findPageData`, from
    `_find_pagination_and_data_list`) and the pagination drive loop
    (`fetch_graphql_paginated`),
  - the fingerprint-cached GraphQL entrypoint (`get_remote_graphql`).

Network transports are passed in explicitly: a plain-resource await is a
function from task identifiers to a response or a network error, and the
GraphQL transport is a function from the (0-based) index of the POST
request to its response.  The functions additionally report how many
network awaits/requests they performed and which requests they sent, so
that call-count properties of the spec can be stated.
-/

set_option linter.unusedVariables false

/-! ## JSON-like values -/

mutual

/-- JSON-like value, as decoded from a remote response body.  Objects keep
their fields in insertion order, as Python dicts do. -/
inductive J where
  | null
  | bool (b : Bool)
  | num (n : Int)
  | str (s : String)
  | arr (elems : JList)
  | obj (fields : JFields)
deriving DecidableEq

/-- List of JSON values (spelled out so traversals stay structural). -/
inductive JList where
  | nil
  | cons (head : J) (tail : JList)
deriving DecidableEq

/-- Field list of a JSON object, in insertion order. -/
inductive JFields where
  | nil
  | cons (key : String) (val : J) (tail : JFields)
deriving DecidableEq

end

/-- First value stored under key `k`, if any: Python `d[k]` / `k in d`. -/
def JFields.find? (k : String) : JFields → Option J
  | .nil => none
  | .cons k' v tl => if k' = k then some v else JFields.find? k tl

/-- Append two JSON lists (Python `list + list`). -/
def JList.append : JList → JList → JList
  | .nil, b => b
  | .cons h t, b => .cons h (JList.append t b)

/-- Length of a JSON list. -/
def JList.length : JList → Nat
  | .nil => 0
  | .cons _ t => JList.length t + 1

/-- Python truthiness of a decoded JSON value (`bool(x)`). -/
def J.truthy : J → Bool
  | .null => false
  | .bool b => b
  | .num n => n != 0
  | .str s => !s.isEmpty
  | .arr .nil => false
  | .arr (.cons _ _) => true
  | .obj .nil => false
  | .obj (.cons _ _ _) => true

/-- Python `d.get(k, default)`.  The source only calls this on values that
are dicts; on a non-object value the model returns the default. -/
def J.getD (v : J) (k : String) (d : J) : J :=
  match v with
  | .obj fs => (fs.find? k).getD d
  | _ => d

/-- Python `str(x)` as used in the cursor f-string.  Cursors are strings in
every response this program processes; the renderings of the other scalar
constructors follow Python `str`, and container rendering is not modelled. -/
def pyStr : J → String
  | .str s => s
  | .bool true => "True"
  | .bool false => "False"
  | .null => "None"
  | .num n => toString n
  | .arr _ => ""
  | .obj _ => ""

/-- Build a JSON object from a Lean list of fields. -/
def jobj (l : List (String × J)) : J :=
  J.obj (l.foldr (fun kv acc => JFields.cons kv.1 kv.2 acc) .nil)

/-- Build a JSON array from a Lean list of values. -/
def jarr (l : List J) : J :=
  J.arr (l.foldr JList.cons .nil)

/-! ## Pagination search (`_find_pagination_and_data_list`) -/

/-- Fallback of `_find_pagination_and_data_list`:
`return list(), dict(hasNextPage=False)`. -/
def noPageFound : J × J :=
  (J.arr .nil, J.obj (.cons "hasNextPage" (.bool false) .nil))

/-- Acceptance test applied to each recursive result in
`_find_pagination_and_data_list`:
`if nodes or page_info.get("hasNextPage", False):`. -/
def acceptPage (r : J × J) : Bool :=
  r.1.truthy || (r.2.getD "hasNextPage" (.bool false)).truthy

mutual

/-- Translation of `DownloadManager._find_pagination_and_data_list`:
depth-first search for the first dict carrying both `"nodes"` and
`"pageInfo"`.  A non-dict input, or a search that accepts no recursive
result, yields `noPageFound`. -/
def findPageData : J → J × J
  | .obj fs =>
      match fs.find? "nodes", fs.find? "pageInfo" with
      | some ns, some pi => (ns, pi)
      | _, _ =>
        match searchFields fs with
        | some r => r
        | none => noPageFound
  | _ => noPageFound

/-- The `for value in response.values():` loop of
`_find_pagination_and_data_list`: recurse into dict values, scan list
values element-wise, skip scalars; keep only accepted recursive results. -/
def searchFields : JFields → Option (J × J)
  | .nil => none
  | .cons _ (J.obj gs) tl =>
      if acceptPage (findPageData (J.obj gs)) then some (findPageData (J.obj gs))
      else searchFields tl
  | .cons _ (J.arr elems) tl =>
      match searchList elems with
      | some r => some r
      | none => searchFields tl
  | .cons _ _ tl => searchFields tl

/-- The `for item in value:` inner loop: recurse into dict elements of a
list value, skip everything else. -/
def searchList : JList → Option (J × J)
  | .nil => none
  | .cons (J.obj gs) tl =>
      if acceptPage (findPageData (J.obj gs)) then some (findPageData (J.obj gs))
      else searchList tl
  | .cons _ tl => searchList tl

end

mutual

/-- Whether some sub-object anywhere inside `v` (including `v` itself)
carries both a `"nodes"` and a `"pageInfo"` field.  This predicate recurses
into every array and object, so `hasMatch v = false` states that no
matching sub-object exists anywhere in the structure. -/
def hasMatch : J → Bool
  | .obj fs => ((fs.find? "nodes").isSome && (fs.find? "pageInfo").isSome) || hasMatchFields fs
  | .arr l => hasMatchList l
  | _ => false

/-- does any field value of `fs` contain a matching sub-object? -/
def hasMatchFields : JFields → Bool
  | .nil => false
  | .cons _ v tl => hasMatch v || hasMatchFields tl

/-- does any element of `l` contain a matching sub-object? -/
def hasMatchList : JList → Bool
  | .nil => false
  | .cons hd tl => hasMatch hd || hasMatchList tl

end

/-! ## Resource cache and plain resources -/

/-- Settled HTTP response, as `DownloadManager` sees it: status code, raw
body bytes (modelled as a string) and the request URL used in error
messages.  `res.json()` is modelled by applying a JSON-parse function,
passed in explicitly, to `content`. -/
structure Response where
  status_code : Nat
  content : String
  url : String
deriving DecidableEq

/-- Handle of an `asyncio.Task` created by `create_task(client.get(url))`:
an identifier for the underlying network operation plus whether the task
has already completed (`task.done()`). -/
structure TaskHandle where
  id : Nat
  done : Bool
deriving DecidableEq

/-- Value stored in `DownloadManager._REMOTE_RESOURCES_CACHE`: a pending
`Task` (plain resource not yet awaited), a settled `Response` (plain
resource already awaited once), or a plain decoded result (stored by
`get_remote_graphql` under a fingerprint key). -/
inductive CacheEntry where
  | task (t : TaskHandle)
  | response (r : Response)
  | result (v : J)
deriving DecidableEq

/-- The process-wide cache: a `dict` from resource key to entry, modelled
as an insertion-ordered association list with unique keys. -/
abbrev Cache := List (String × CacheEntry)

/-- Python `d[k]` lookup on the cache (`none` models a `KeyError`). -/
def cacheFind? : Cache → String → Option CacheEntry
  | [], _ => none
  | (k', e) :: tl, k => if k' = k then some e else cacheFind? tl k

/-- Python `d[k] = e` on the cache: replace in place if present (keeping
dict insertion order), otherwise append. -/
def cacheInsert : Cache → String → CacheEntry → Cache
  | [], k, e => [(k, e)]
  | (k', e') :: tl, k, e =>
      if k' = k then (k, e) :: tl else (k', e') :: cacheInsert tl k e

/-- Translation of `DownloadManager.load_remote_resources`: start one GET
task per named URL and register each as a pending cache entry.  `newTask`
models `create_task(self._client.get(url))`, producing a fresh (not yet
done) task handle for a URL. -/
def load_remote_resources (newTask : String → TaskHandle) (resources : List (String × String)) (cache : Cache) : Cache :=
  resources.foldl (fun c r => cacheInsert c r.1 (.task (newTask r.2))) cache

/-- Exceptions raised by `_get_remote_resource`. -/
inductive RError where
  | keyError (k : String)
  | network (msg : String)
  | badStatus (url : String) (status : Nat) (body : J)
  | attrError
deriving DecidableEq

/-- Result of one `_get_remote_resource` call: the returned value or
raised exception, the cache afterwards, and how many network awaits the
call performed. -/
structure ResolveOut where
  result : Except RError (Option J)
  cache : Cache
  netOps : Nat

/-- Status inspection at the end of `_get_remote_resource` (lines 160-169):
`200` returns `res.json()` or `convertor(res.content)`, `201`/`202` return
`None`, anything else raises carrying the URL, status and body. -/
def inspect_status (jsonParse : String → J) (convertor : Option (String → J)) (res : Response) : Except RError (Option J) :=
  if res.status_code = 200 then
    .ok (some (match convertor with
      | none => jsonParse res.content
      | some f => f res.content))
  else if res.status_code = 201 ∨ res.status_code = 202 then
    .ok none
  else
    .error (.badStatus res.url res.status_code (jsonParse res.content))

/-- Translation of `DownloadManager._get_remote_resource`.  `awaitTask`
models awaiting the pending network operation of a task: it yields the
settled response or a network failure.  A pending entry is awaited (one
network operation) and, on success, replaced in the cache by the settled
response; on failure the exception is re-raised and the cache is left as
it was.  A settled entry is used directly with no network operation.  A
missing key raises `KeyError` (the Python `dict` indexing on line 142); a
`result` entry stored under the same key would make the Python code fail
on `res.status_code` (modelled as `attrError`). -/
def get_remote_resource (jsonParse : String → J) (awaitTask : Nat → Except String Response)
    (cache : Cache) (resource : String) (convertor : Option (String → J)) : ResolveOut :=
  match cacheFind? cache resource with
  | none => ⟨.error (.keyError resource), cache, 0⟩
  | some (.task t) =>
      match awaitTask t.id with
      | .error e => ⟨.error (.network e), cache, 1⟩
      | .ok res =>
          ⟨inspect_status jsonParse convertor res,
           cacheInsert cache resource (.response res), 1⟩
  | some (.response res) => ⟨inspect_status jsonParse convertor res, cache, 0⟩
  | some (.result _) => ⟨.error .attrError, cache, 0⟩

/-- Translation of `DownloadManager.get_remote_json`. -/
def get_remote_json (jsonParse : String → J) (awaitTask : Nat → Except String Response)
    (cache : Cache) (resource : String) : ResolveOut :=
  get_remote_resource jsonParse awaitTask cache resource none

/-- Translation of `DownloadManager.get_remote_yaml`; `yamlParse` models
`yaml.safe_load`. -/
def get_remote_yaml (jsonParse yamlParse : String → J) (awaitTask : Nat → Except String Response)
    (cache : Cache) (resource : String) : ResolveOut :=
  get_remote_resource jsonParse awaitTask cache resource (some yamlParse)

/-! ## Shutdown drain (`close_remote_resources`) -/

/-- Observable actions performed while draining one cache entry. -/
inductive DrainAction where
  | cancel (id : Nat)
  | awaited (id : Nat)
deriving DecidableEq

/-- Outcome of awaiting a task during shutdown: a settled response, a
raised error deriving from `Exception` (network failures and the like),
or a raised `asyncio.CancelledError` — the usual outcome of awaiting a
task right after `cancel()`.  On Python 3.8 and later `CancelledError`
derives from `BaseException`, not `Exception`, so the two raise outcomes
behave differently under an `except Exception` handler. -/
inductive AwaitOutcome where
  | ok (r : Response)
  | exc (msg : String)
  | cancelled
deriving DecidableEq

/-- Drain of one cache entry inside `close_remote_resources`: a `Task` is
cancelled if not yet done and then awaited.  The surrounding handlers
(lines 123-127 and 133-135) are both `except Exception: pass`, so an
`Exception`-derived failure of the await is swallowed, but a raised
`CancelledError` derives from `BaseException` and escapes both handlers —
the second component is `true` when it does.  Settled responses and
stored results are not `Task`s or `Awaitable`s, so nothing happens to
them. -/
def drain_entry (awaitTask : Nat → AwaitOutcome) : CacheEntry → List DrainAction × Bool
  | .task t =>
      match awaitTask t.id with
      | .ok _ => ((if t.done then [] else [.cancel t.id]) ++ [.awaited t.id], false)
      | .exc _ => ((if t.done then [] else [.cancel t.id]) ++ [.awaited t.id], false)
      | .cancelled => ((if t.done then [] else [.cancel t.id]) ++ [.awaited t.id], true)
  | .response _ => ([], false)
  | .result _ => ([], false)

/-- Translation of `DownloadManager.close_remote_resources`: drain every
cache entry in order.  The cache `dict` itself is not mutated (the loop
only reads `list(..._CACHE.values())`), so the function returns the list
of performed actions, together with `true` when a `CancelledError`
escaped; in that case the `for` loop is aborted at the raising entry and
the exception propagates out of `close_remote_resources`. -/
def close_remote_resources (awaitTask : Nat → AwaitOutcome) : Cache → List DrainAction × Bool
  | [] => ([], false)
  | (_, e) :: tl =>
      match drain_entry awaitTask e with
      | (acts, true) => (acts, true)
      | (acts, false) =>
          match close_remote_resources awaitTask tl with
          | (acts2, raised) => (acts ++ acts2, raised)

/-! ## GraphQL query templates -/

/-- Template text of `GITHUB_API_QUERIES["repos_contributed_to"]` (braces
written as `\x7b`/`\x7d`). -/
def tmpl_repos_contributed_to : String :=
"\n\x7b\n    user(login: \"$username\") \x7b\n        repositoriesContributedTo(orderBy: \x7bfield: CREATED_AT, direction: DESC\x7d, $pagination, includeUserRepositories: true) \x7b\n            nodes \x7b\n                primaryLanguage \x7b name \x7d\n                name\n                owner \x7b login \x7d\n                isPrivate\n                isFork\n            \x7d\n            pageInfo \x7b endCursor hasNextPage \x7d\n        \x7d\n    \x7d\n\x7d"

/-- Template text of `GITHUB_API_QUERIES["user_repository_list"]`. -/
def tmpl_user_repository_list : String :=
"\n\x7b\n    user(login: \"$username\") \x7b\n        repositories(orderBy: \x7bfield: CREATED_AT, direction: DESC\x7d, $pagination, affiliations: [OWNER, COLLABORATOR], isFork: false) \x7b\n            nodes \x7b\n                primaryLanguage \x7b name \x7d\n                name\n                owner \x7b login \x7d\n                isPrivate\n            \x7d\n            pageInfo \x7b endCursor hasNextPage \x7d\n        \x7d\n    \x7d\n\x7d\n"

/-- Template text of `GITHUB_API_QUERIES["repo_branch_list"]`. -/
def tmpl_repo_branch_list : String :=
"\n\x7b\n    repository(owner: \"$owner\", name: \"$name\") \x7b\n        refs(refPrefix: \"refs/heads/\", orderBy: \x7bdirection: DESC, field: TAG_COMMIT_DATE\x7d, $pagination) \x7b\n            nodes \x7b name \x7d\n            pageInfo \x7b endCursor hasNextPage \x7d\n        \x7d\n    \x7d\n\x7d\n"

/-- Template text of `GITHUB_API_QUERIES["repo_commit_list"]`. -/
def tmpl_repo_commit_list : String :=
"\n\x7b\n    repository(owner: \"$owner\", name: \"$name\") \x7b\n        ref(qualifiedName: \"refs/heads/$branch\") \x7b\n            target \x7b\n                ... on Commit \x7b\n                    history(author: \x7b id: \"$id\" \x7d, $pagination) \x7b\n                        nodes \x7b\n                            ... on Commit \x7b additions deletions committedDate oid \x7d\n                        \x7d\n                        pageInfo \x7b endCursor hasNextPage \x7d\n                    \x7d\n                \x7d\n            \x7d\n        \x7d\n    \x7d\n\x7d\n"

/-- Template text of `GITHUB_API_QUERIES["hide_outdated_comment"]`. -/
def tmpl_hide_outdated_comment : String :=
"\nmutation \x7b\n    minimizeComment(input: \x7bclassifier: OUTDATED, subjectId: \"$id\"\x7d) \x7b\n        clientMutationId\n    \x7d\n\x7d\n"

/-- The `GITHUB_API_QUERIES` dict: query name to template text (`none`
models a `KeyError` on lookup). -/
def GITHUB_API_QUERIES : String → Option String
  | "repos_contributed_to" => some tmpl_repos_contributed_to
  | "user_repository_list" => some tmpl_user_repository_list
  | "repo_branch_list" => some tmpl_repo_branch_list
  | "repo_commit_list" => some tmpl_repo_commit_list
  | "hide_outdated_comment" => some tmpl_hide_outdated_comment
  | _ => none

/-- Substring test on character lists (Python `pat in s`). -/
def charsContain (pat : List Char) : List Char → Bool
  | [] => pat.isEmpty
  | c :: tl => pat.isPrefixOf (c :: tl) || charsContain pat tl

/-- Python `pat in s` on strings. -/
def strContains (s pat : String) : Bool :=
  charsContain pat.toList s.toList

/-! ## GraphQL query engine (`_fetch_graphql_query`) -/

/-- Raw response of one POST to the GraphQL endpoint: HTTP status plus the
decoded JSON body. -/
structure GResp where
  status : Nat
  body : J
deriving DecidableEq

/-- One POST request sent by the engine, recorded for instrumentation:
the query name and the substitution parameters (including the injected
`pagination` parameter, when present). -/
structure SentReq where
  query : String
  kwargs : List (String × String)
deriving DecidableEq

/-- Exceptions raised by the GraphQL engine. -/
inductive GErr where
  | queryFailed (query : String) (status : Nat) (body : J)
  | keyError (k : String)
  | typeError
  | fuelExhausted
deriving DecidableEq

/-- Outcome of a GraphQL fetch: returned value or raised exception, index
of the next unused transport call (so `nextCall - i` is the number of
requests issued), and the requests sent. -/
structure GqlOut where
  result : Except GErr J
  nextCall : Nat
  sent : List SentReq

/-- Translation of `DownloadManager._fetch_graphql_query`.  The transport
`gql` maps the index of a POST request to its response.  Status 200
returns the body; status 502 with retries remaining re-issues the
identical request immediately; any other status (or a 502 with the retry
budget exhausted) raises carrying the query name, status and body.  The
template lookup `GITHUB_API_QUERIES[query]` raises `KeyError` for an
unknown name; `Template.substitute` itself is not modelled beyond
recording the substitution parameters of the request. -/
def fetch_graphql_query (gql : Nat → GResp) (query : String) (kwargs : List (String × String)) : Nat → Nat → GqlOut
  | retries, i =>
    match GITHUB_API_QUERIES query with
    | none => ⟨.error (.keyError query), i, []⟩
    | some _ =>
      match gql i, retries with
      | res, r + 1 =>
        if res.status = 200 then ⟨.ok res.body, i + 1, [⟨query, kwargs⟩]⟩
        else if res.status = 502 then
          match fetch_graphql_query gql query kwargs r (i + 1) with
          | ⟨out, i2, sent⟩ => ⟨out, i2, ⟨query, kwargs⟩ :: sent⟩
        else ⟨.error (.queryFailed query res.status res.body), i + 1, [⟨query, kwargs⟩]⟩
      | res, 0 =>
        if res.status = 200 then ⟨.ok res.body, i + 1, [⟨query, kwargs⟩]⟩
        else ⟨.error (.queryFailed query res.status res.body), i + 1, [⟨query, kwargs⟩]⟩

/-! ## Pagination flattener (`_fetch_graphql_paginated`) -/

/-- Python `v[k]` on a decoded JSON value: `KeyError` for a missing key of
an object, `TypeError` for a non-object. -/
def jIndex (v : J) (k : String) : Except GErr J :=
  match v with
  | .obj fs =>
      match fs.find? k with
      | some x => .ok x
      | none => .error (.keyError k)
  | _ => .error .typeError

/-- Python `page_list += new_page_list`: list concatenation, a `TypeError`
if either side is not a list. -/
def jConcat (a b : J) : Except GErr J :=
  match a, b with
  | .arr x, .arr y => .ok (.arr (x.append y))
  | _, _ => .error .typeError

/-- The `while page_info["hasNextPage"]:` loop of
`_fetch_graphql_paginated`, with an explicit fuel bound on the number of
iterations (the source loop runs until the provider reports no further
page; every theorem below supplies enough fuel for its transport).
`acc` is the accumulated `page_list` and `pinfo` the current `page_info`. -/
def fetch_paginated_loop (gql : Nat → GResp) (query : String) (kwargs : List (String × String)) : Nat → J → J → Nat → GqlOut
  | 0, acc, pinfo, i => ⟨.error .fuelExhausted, i, []⟩
  | fuel + 1, acc, pinfo, i =>
    match jIndex pinfo "hasNextPage" with
    | .error e => ⟨.error e, i, []⟩
    | .ok hnp =>
      if hnp.truthy then
        match jIndex pinfo "endCursor" with
        | .error e => ⟨.error e, i, []⟩
        | .ok ec =>
          match fetch_graphql_query gql query
              (kwargs ++ [("pagination", "first: 100, after: \"" ++ pyStr ec ++ "\"")]) 10 i with
          | ⟨.error e, i2, sent⟩ => ⟨.error e, i2, sent⟩
          | ⟨.ok resp, i2, sent⟩ =>
            match jConcat acc (findPageData resp).1 with
            | .error e => ⟨.error e, i2, sent⟩
            | .ok acc2 =>
              match fetch_paginated_loop gql query kwargs fuel acc2 (findPageData resp).2 i2 with
              | ⟨out, i3, sent2⟩ => ⟨out, i3, sent ++ sent2⟩
      else ⟨.ok acc, i, []⟩

/-- Translation of `DownloadManager._fetch_graphql_paginated`: issue the
first query with `pagination = "first: 100"`, extract the first page with
`findPageData`, then drive the cursor loop. -/
def fetch_graphql_paginated (gql : Nat → GResp) (query : String) (kwargs : List (String × String)) (fuel i : Nat) : GqlOut :=
  match fetch_graphql_query gql query (kwargs ++ [("pagination", "first: 100")]) 10 i with
  | ⟨.error e, i2, sent⟩ => ⟨.error e, i2, sent⟩
  | ⟨.ok resp, i2, sent⟩ =>
    match fetch_paginated_loop gql query kwargs fuel (findPageData resp).1 (findPageData resp).2 i2 with
    | ⟨out, i3, sent2⟩ => ⟨out, i3, sent ++ sent2⟩

/-! ## Fingerprint cache key (`get_remote_graphql`) -/

/-- Escape of one character in a JSON string literal, as `json.dumps`
renders it (quote and backslash; control-character escapes do not arise in
the parameter values this program uses and are not modelled). -/
def jsonEscapeChar (c : Char) : List Char :=
  if c = '"' ∨ c = '\\' then ['\\', c] else [c]

/-- Escape of a whole string body for a JSON string literal. -/
def jsonEscape : List Char → List Char
  | [] => []
  | c :: tl => jsonEscapeChar c ++ jsonEscape tl

/-- Rendering of one `"key": "value"` pair of `json.dumps`. -/
def renderEntry (p : String × String) : List Char :=
  '"' :: (jsonEscape p.1.toList ++ '"' :: ':' :: ' ' :: '"' :: (jsonEscape p.2.toList ++ ['"']))

/-- Rendering of the part of `json.dumps` output after one entry: either
the closing brace, or a comma-space separator, the next entry and the rest. -/
def renderTail : List (String × String) → List Char
  | [] => ['\x7d']
  | p :: tl => ',' :: ' ' :: (renderEntry p ++ renderTail tl)

/-- Model of `json.dumps(kwargs, ...)` on a string-to-string mapping given
as an ordered list of pairs: `\x7b"k1": "v1", "k2": "v2"\x7d`. -/
def pyJsonDumps (l : List (String × String)) : String :=
  match l with
  | [] => String.mk ['\x7b', '\x7d']
  | p :: tl => String.mk ('\x7b' :: (renderEntry p ++ renderTail tl))

/-- Insert one pair into a list sorted by key (`<` on strings, the
code-point order `sort_keys=True` uses). -/
def insertByKey (p : String × String) : List (String × String) → List (String × String)
  | [] => [p]
  | q :: tl => if p.1 < q.1 then p :: q :: tl else q :: insertByKey p tl

/-- Key-sorted rearrangement of a pair list, modelling `sort_keys=True`. -/
def sortByKey : List (String × String) → List (String × String)
  | [] => []
  | p :: tl => insertByKey p (sortByKey tl)

/-- Model of `md5(s.encode("utf-8")).digest()` as rendered into the
cache-key f-string: modelled as an injective fingerprint of the serialized
input (md5 hash collisions are not modelled). -/
def md5_digest_repr (s : String) : String := s

/-- The fingerprint cache key of `get_remote_graphql` (line 256):
the query name, an underscore, and the digest of the sorted-keys JSON
dump of the parameters (line 256 of the source, an f-string). -/
def cacheKeyOf (query : String) (kwargs : List (String × String)) : String :=
  query ++ "_" ++ md5_digest_repr (pyJsonDumps (sortByKey kwargs))

/-- Value the Python code returns for a cache hit (`res = ..._CACHE[key]`):
the stored flattened list or response.  Only `result` entries occur under
fingerprint keys in this program; for the other entry kinds Python would
return the raw stored object, which has no decoded-JSON counterpart here. -/
def entryVal : CacheEntry → J
  | .result v => v
  | .task _ => J.null
  | .response _ => J.null

/-- Result of one `get_remote_graphql` call. -/
structure GremoteOut where
  result : Except GErr J
  cache : Cache
  nextCall : Nat
  sent : List SentReq

/-- Translation of `DownloadManager.get_remote_graphql`: compute the
fingerprint key; on a hit return the cached value with no network I/O; on
a miss dispatch to the paginated fetch when the template contains the
`$pagination` placeholder and to the plain query otherwise, and cache a
successful result under the key (a raised exception caches nothing). -/
def get_remote_graphql (gql : Nat → GResp) (cache : Cache) (query : String)
    (kwargs : List (String × String)) (fuel i : Nat) : GremoteOut :=
  match cacheFind? cache (cacheKeyOf query kwargs) with
  | some e => ⟨.ok (entryVal e), cache, i, []⟩
  | none =>
    match GITHUB_API_QUERIES query with
    | none => ⟨.error (.keyError query), cache, i, []⟩
    | some tmpl =>
      match (if strContains tmpl "$pagination"
             then fetch_graphql_paginated gql query kwargs fuel i
             else fetch_graphql_query gql query kwargs 10 i) with
      | ⟨.ok v, i2, sent⟩ =>
          ⟨.ok v, cacheInsert cache (cacheKeyOf query kwargs) (.result v), i2, sent⟩
      | ⟨.error e, i2, sent⟩ => ⟨.error e, cache, i2, sent⟩

/-! ## Cache lemmas -/

theorem cacheFind?_insert_self (c : Cache) (k : String) (e : CacheEntry) :
    cacheFind? (cacheInsert c k e) k = some e := by
  induction c with
  | nil => simp [cacheInsert, cacheFind?]
  | cons hd tl ih =>
      by_cases h : hd.1 = k
      · simp [cacheInsert, cacheFind?, h]
      · simpa [cacheInsert, cacheFind?, h] using ih

theorem cacheFind?_insert_ne (c : Cache) (k k' : String) (e : CacheEntry) (h : k ≠ k') :
    cacheFind? (cacheInsert c k e) k' = cacheFind? c k' := by
  induction c with
  | nil => simp [cacheInsert, cacheFind?, h]
  | cons hd tl ih =>
      by_cases hh : hd.1 = k
      · simp [cacheInsert, cacheFind?, hh, h]
      · by_cases hk : hd.1 = k'
        · simp [cacheInsert, cacheFind?, hh, hk, Ne.symm h]
        · simpa [cacheInsert, cacheFind?, hh, hk] using ih

/-! ## Pagination search lemmas -/

theorem acceptPage_noPageFound : acceptPage noPageFound = false := rfl

theorem findPageData_hit (fs : JFields) (ns pi : J)
    (hn : fs.find? "nodes" = some ns) (hp : fs.find? "pageInfo" = some pi) :
    findPageData (J.obj fs) = (ns, pi) := by
  simp [findPageData, hn, hp]

/-- When no sub-object anywhere carries both fields, the search falls all
the way through to `noPageFound` (with the companion statements for the
field-list and element-list searches baked into the induction motives). -/
theorem findPageData_of_no_match :
    ∀ v : J, hasMatch v = false → findPageData v = noPageFound := by
  refine findPageData.induct
    (fun v => hasMatch v = false → findPageData v = noPageFound)
    (fun fs => hasMatchFields fs = false → searchFields fs = none)
    (fun l => hasMatchList l = false → searchList l = none)
    ?_ ?_ ?_ ?_ ?_ ?_ ?_ ?_ ?_ ?_ ?_ ?_ ?_ ?_
  · intro fs ns pi hp hn h
    simp [hasMatch, hn, hp] at h
  · intro fs r hsf hno ih h
    simp only [hasMatch, Bool.or_eq_false_iff] at h
    rw [ih h.2] at hsf
    exact absurd hsf (by simp)
  · intro fs hsf hno ih h
    rw [findPageData.eq_def]
    rcases e1 : fs.find? "nodes" with _ | ns <;>
      rcases e2 : fs.find? "pageInfo" with _ | pi <;>
      simp [e1, e2, hsf]
    exact absurd (hno ns pi e1 e2) (fun f => f)
  · intro t hnotobj h
    rw [findPageData.eq_def]
    cases t with
    | obj fs => exact absurd rfl (hnotobj fs)
    | null => rfl
    | bool b => rfl
    | num n => rfl
    | str s => rfl
    | arr l => rfl
  · intro h
    simp [searchList]
  · intro gs tl hacc ih h
    simp only [hasMatchList, Bool.or_eq_false_iff] at h
    rw [ih h.1, acceptPage_noPageFound] at hacc
    exact absurd hacc (by simp)
  · intro gs tl hnacc ih ih3 h
    simp only [hasMatchList, Bool.or_eq_false_iff] at h
    simp only [searchList, if_neg hnacc]
    exact ih3 h.2
  · intro hd tl hnotobj ih h
    simp only [hasMatchList, Bool.or_eq_false_iff] at h
    rw [searchList.eq_def]
    cases hd with
    | obj fs => exact absurd rfl (hnotobj fs)
    | null => exact ih h.2
    | bool b => exact ih h.2
    | num n => exact ih h.2
    | str s => exact ih h.2
    | arr l =>
        -- an array element of an array is skipped by the source loop
        exact ih h.2
  · intro h
    simp [searchFields]
  · intro k gs tl hacc ih h
    simp only [hasMatchFields, Bool.or_eq_false_iff] at h
    rw [ih h.1, acceptPage_noPageFound] at hacc
    exact absurd hacc (by simp)
  · intro k gs tl hnacc ih ih2 h
    simp only [hasMatchFields, Bool.or_eq_false_iff] at h
    simp only [searchFields, if_neg hnacc]
    exact ih2 h.2
  · intro k elems tl r hsl ih h
    simp only [hasMatchFields, Bool.or_eq_false_iff] at h
    rw [ih (by simpa [hasMatch] using h.1)] at hsl
    exact absurd hsl (by simp)
  · intro k elems tl hsl ih ih2 h
    simp only [hasMatchFields, Bool.or_eq_false_iff] at h
    simp only [searchFields, hsl]
    exact ih2 h.2
  · intro k v tl hnotobj hnotarr ih h
    simp only [hasMatchFields, Bool.or_eq_false_iff] at h
    rw [searchFields.eq_def]
    cases v with
    | obj fs => exact absurd rfl (hnotobj fs)
    | arr l => exact absurd rfl (hnotarr l)
    | null => exact ih h.2
    | bool b => exact ih h.2
    | num n => exact ih h.2
    | str s => exact ih h.2

/-- true for values that are neither objects nor arrays (the traversal
skips such sibling values without recursing). -/
def isScalarJ : J → Bool
  | .obj _ => false
  | .arr _ => false
  | _ => true

theorem searchFields_skip_scalar (k : String) (v : J) (tl : JFields)
    (hv : isScalarJ v = true) :
    searchFields (.cons k v tl) = searchFields tl := by
  cases v with
  | obj fs => simp [isScalarJ] at hv
  | arr l => simp [isScalarJ] at hv
  | null => rfl
  | bool b => rfl
  | num n => rfl
  | str s => rfl

theorem findPageData_target (ns pi : J) :
    findPageData (J.obj (.cons "nodes" ns (.cons "pageInfo" pi .nil))) = (ns, pi) :=
  findPageData_hit _ _ _ (by simp [JFields.find?]) (by simp [JFields.find?])

/-- Stepping through one wrapper object whose only sub-object field holds
an accepted match: the search result of the whole equals the search result
of the wrapped object.  `ka` is an optional scalar sibling key before the
wrapper key `kb`. -/
theorem findPageData_wrapper (ka kb : String) (s : J) (gs : JFields)
    (hs : isScalarJ s = true)
    (hka : ka ≠ "nodes") (hkb : kb ≠ "nodes")
    (hacc : acceptPage (findPageData (J.obj gs)) = true) :
    findPageData (J.obj (.cons ka s (.cons kb (J.obj gs) .nil))) = findPageData (J.obj gs) := by
  have h1 : JFields.find? "nodes" (.cons ka s (.cons kb (J.obj gs) .nil)) = none := by
    simp [JFields.find?, hka, hkb]
  rw [findPageData.eq_def]
  simp only [h1]
  rw [searchFields_skip_scalar _ _ _ hs]
  simp only [searchFields, if_pos hacc]

/-- Same step for a single-field wrapper object (no sibling). -/
theorem findPageData_wrapper1 (kb : String) (gs : JFields)
    (hkb : kb ≠ "nodes")
    (hacc : acceptPage (findPageData (J.obj gs)) = true) :
    findPageData (J.obj (.cons kb (J.obj gs) .nil)) = findPageData (J.obj gs) := by
  have h1 : JFields.find? "nodes" (.cons kb (J.obj gs) .nil) = none := by
    simp [JFields.find?, hkb]
  rw [findPageData.eq_def]
  simp only [h1]
  simp only [searchFields, if_pos hacc]

theorem JList.length_append : ∀ (a b : JList),
    (a.append b).length = a.length + b.length
  | .nil, b => by simp [JList.append, JList.length]
  | .cons h t, b => by
      simp [JList.append, JList.length, JList.length_append t b]
      omega

/-! ## Canonical serialization lemmas (for the fingerprint key) -/

theorem insertByKey_perm (p : String × String) (l : List (String × String)) :
    (insertByKey p l).Perm (p :: l) := by
  induction l with
  | nil => simp [insertByKey]
  | cons q tl ih =>
      by_cases h : p.1 < q.1
      · simp [insertByKey, h]
      · simp only [insertByKey, if_neg h]
        exact ((ih.cons q).trans (List.Perm.swap p q tl))

theorem sortByKey_perm (l : List (String × String)) :
    (sortByKey l).Perm l := by
  induction l with
  | nil => simp [sortByKey]
  | cons p tl ih =>
      exact (insertByKey_perm p (sortByKey tl)).trans (ih.cons p)

theorem insertByKey_comm (p q : String × String) (l : List (String × String))
    (h : p.1 ≠ q.1) :
    insertByKey p (insertByKey q l) = insertByKey q (insertByKey p l) := by
  induction l with
  | nil =>
      rcases lt_trichotomy p.1 q.1 with hlt | heq | hgt
      · simp [insertByKey, hlt, not_lt_of_gt hlt]
      · exact absurd heq h
      · simp [insertByKey, hgt, not_lt_of_gt hgt]
  | cons r tl ih =>
      by_cases hq : q.1 < r.1
      · by_cases hp : p.1 < r.1
        · rcases lt_trichotomy p.1 q.1 with hlt | heq | hgt
          · simp [insertByKey, hp, hq, hlt, not_lt_of_gt hlt]
          · exact absurd heq h
          · simp [insertByKey, hp, hq, hgt, not_lt_of_gt hgt]
        · have hnpq : ¬ p.1 < q.1 := fun hc => hp (hc.trans hq)
          simp [insertByKey, hp, hq, hnpq]
      · by_cases hp : p.1 < r.1
        · have hnqp : ¬ q.1 < p.1 := fun hc => hq (hc.trans hp)
          simp [insertByKey, hp, hq, hnqp]
        · simp [insertByKey, hp, hq, ih]

theorem sortByKey_eq_of_perm {l1 l2 : List (String × String)}
    (h : l1.Perm l2) :
    (l1.map Prod.fst).Nodup → sortByKey l1 = sortByKey l2 := by
  induction h with
  | nil => intro _; rfl
  | cons x h ih =>
      intro hnd
      simp only [List.map_cons, List.nodup_cons] at hnd
      simp [sortByKey, ih hnd.2]
  | swap x y l =>
      intro hnd
      simp only [List.map_cons, List.nodup_cons, List.mem_cons] at hnd
      have hxy : y.1 ≠ x.1 := fun hc => hnd.1 (Or.inl hc)
      simp only [sortByKey]
      exact insertByKey_comm y x (sortByKey l) hxy
  | trans h1 h2 ih1 ih2 =>
      intro hnd
      exact (ih1 hnd).trans (ih2 (((h1.map Prod.fst).nodup_iff).mp hnd))

/-- Decoder for JSON string bodies as escaped by `jsonEscape`: consume
characters up to the closing unescaped quote, and return the decoded body
and the remaining input. -/
def parseJStr : List Char → Option (List Char × List Char)
  | [] => none
  | '\\' :: c :: tl =>
      match parseJStr tl with
      | some (s, r) => some (c :: s, r)
      | none => none
  | '"' :: tl => some ([], tl)
  | c :: tl =>
      match parseJStr tl with
      | some (s, r) => some (c :: s, r)
      | none => none

theorem parseJStr_round (s rest : List Char) :
    parseJStr (jsonEscape s ++ '"' :: rest) = some (s, rest) := by
  induction s with
  | nil => rfl
  | cons c tl ih =>
      by_cases h : c = '"' ∨ c = '\\'
      · have : jsonEscape (c :: tl) = '\\' :: c :: jsonEscape tl := by
          simp [jsonEscape, jsonEscapeChar, h]
        rw [this]
        simp [parseJStr, ih]
      · have : jsonEscape (c :: tl) = c :: jsonEscape tl := by
          simp [jsonEscape, jsonEscapeChar, h]
        rw [this]
        push_neg at h
        rw [List.cons_append, parseJStr.eq_def]
        split
        · simp_all
        · rename_i heq
          rw [List.cons.injEq] at heq
          exact absurd heq.1 h.2
        · rename_i heq
          rw [List.cons.injEq] at heq
          exact absurd heq.1 h.1
        · simp_all [ih]

/-- Decoder for one `"key": "value"` entry. -/
def parseKVEntry : List Char → Option ((List Char × List Char) × List Char)
  | '"' :: tl =>
      match parseJStr tl with
      | some (k, ':' :: ' ' :: '"' :: tl2) =>
          match parseJStr tl2 with
          | some (v, rest) => some ((k, v), rest)
          | none => none
      | _ => none
  | _ => none

theorem parseKVEntry_round (p : String × String) (rest : List Char) :
    parseKVEntry (renderEntry p ++ rest) = some ((p.1.toList, p.2.toList), rest) := by
  have h1 : renderEntry p ++ rest =
      '"' :: (jsonEscape p.1.toList ++ '"' ::
        (':' :: ' ' :: '"' :: (jsonEscape p.2.toList ++ '"' :: rest))) := by
    simp [renderEntry]
  rw [h1]
  simp [parseKVEntry, parseJStr_round]

/-- Decoder for the rest of a serialized mapping: closing brace, or
separator plus next entry, with fuel bounding the number of entries. -/
def parseKVTail : Nat → List Char → Option (List (List Char × List Char))
  | _, ['\x7d'] => some []
  | fuel + 1, ',' :: ' ' :: rest =>
      match parseKVEntry rest with
      | some (kv, rest2) =>
          match parseKVTail fuel rest2 with
          | some l => some (kv :: l)
          | none => none
      | none => none
  | _, _ => none

/-- Character-level image of a pair list under the dumps rendering. -/
def charsOfPairs (l : List (String × String)) : List (List Char × List Char) :=
  l.map (fun p => (p.1.toList, p.2.toList))

theorem parseKVTail_round : ∀ (fuel : Nat) (tl : List (String × String)),
    tl.length ≤ fuel → parseKVTail fuel (renderTail tl) = some (charsOfPairs tl) := by
  intro fuel
  induction fuel with
  | zero =>
      intro tl h
      have : tl = [] := List.length_eq_zero.mp (Nat.le_zero.mp h)
      subst this
      rfl
  | succ f ih =>
      intro tl h
      match tl with
      | [] => rfl
      | p :: tl' =>
          have h2 : renderTail (p :: tl') = ',' :: ' ' :: (renderEntry p ++ renderTail tl') := rfl
          rw [h2]
          have hne : ¬ (',' :: ' ' :: (renderEntry p ++ renderTail tl') = ['\x7d']) := by
            simp
          rw [parseKVTail.eq_def]
          simp only [parseKVEntry_round]
          rw [ih tl' (by simpa using Nat.le_of_succ_le_succ h)]
          rfl

/-- Decoder for a whole `pyJsonDumps` output. -/
def parseDumpChars (fuel : Nat) : List Char → Option (List (List Char × List Char))
  | '\x7b' :: '\x7d' :: [] => some []
  | '\x7b' :: rest =>
      match parseKVEntry rest with
      | some (kv, rest2) =>
          match parseKVTail fuel rest2 with
          | some l => some (kv :: l)
          | none => none
      | none => none
  | _ => none

theorem parseDumpChars_round (fuel : Nat) (l : List (String × String))
    (h : l.length ≤ fuel) :
    parseDumpChars fuel (pyJsonDumps l).data = some (charsOfPairs l) := by
  match l with
  | [] => rfl
  | p :: tl =>
      have hdata : (pyJsonDumps (p :: tl)).data =
          '\x7b' :: (renderEntry p ++ renderTail tl) := rfl
      rw [hdata, parseDumpChars.eq_def]
      split
      · rename_i heq
        rw [List.cons.injEq] at heq
        have h2 := heq.2
        simp [renderEntry] at h2
      · rename_i hne heq
        rw [List.cons.injEq] at heq
        obtain ⟨-, h2⟩ := heq
        subst h2
        rw [parseKVEntry_round]
        simp [parseKVTail_round fuel tl (Nat.le_of_succ_le h), charsOfPairs]
      · rename_i hne
        exact absurd rfl (hne _)

theorem string_of_data_eq {a b : String} (h : a.data = b.data) : a = b :=
  congrArg String.mk h

theorem toList_injective : Function.Injective String.toList := by
  intro a b h
  exact string_of_data_eq h

theorem pyJsonDumps_inj {l1 l2 : List (String × String)}
    (h : pyJsonDumps l1 = pyJsonDumps l2) : l1 = l2 := by
  have hf := parseDumpChars_round (l1.length + l2.length) l1 (by omega)
  have hg := parseDumpChars_round (l1.length + l2.length) l2 (by omega)
  rw [h, hg] at hf
  have hchars : charsOfPairs l2 = charsOfPairs l1 := Option.some.inj hf
  have hinj : Function.Injective (fun p : String × String => (p.1.toList, p.2.toList)) := by
    intro p q hpq
    simp only [Prod.mk.injEq] at hpq
    exact Prod.ext (toList_injective hpq.1) (toList_injective hpq.2)
  exact (List.map_injective_iff.mpr hinj hchars).symm

theorem cacheKeyOf_eq_of_perm (query : String) {kw1 kw2 : List (String × String)}
    (hperm : kw1.Perm kw2) (hnd : (kw1.map Prod.fst).Nodup) :
    cacheKeyOf query kw1 = cacheKeyOf query kw2 := by
  unfold cacheKeyOf
  rw [sortByKey_eq_of_perm hperm hnd]

theorem cacheKeyOf_ne_of_not_perm (query : String) {kw1 kw2 : List (String × String)}
    (hne : ¬ kw1.Perm kw2) :
    cacheKeyOf query kw1 ≠ cacheKeyOf query kw2 := by
  intro h
  apply hne
  have hd := congrArg String.data h
  simp only [cacheKeyOf, md5_digest_repr, String.data_append] at hd
  rw [List.append_assoc, List.append_assoc] at hd
  have hjson : (pyJsonDumps (sortByKey kw1)).data = (pyJsonDumps (sortByKey kw2)).data := by
    have h2 := List.append_cancel_left hd
    exact List.append_cancel_left h2
  have hsort := pyJsonDumps_inj (string_of_data_eq hjson)
  exact (sortByKey_perm kw1).symm.trans (by rw [hsort]; exact sortByKey_perm kw2)

/-! ## Claim theorems -/

/-- C1: for a registered key whose entry is still pending, resolving twice
performs at most one network operation: the first call awaits the pending
handle (one network await), replaces the cache entry with the settled
response and returns its status inspection; the second call reuses the
settled entry with zero network operations, the same result, and no
further cache change. -/
theorem claim_C1_resolve_twice_one_network (jsonParse : String → J)
    (awaitTask : Nat → Except String Response) (cache : Cache) (k : String)
    (t : TaskHandle) (conv : Option (String → J)) (res : Response)
    (hfind : cacheFind? cache k = some (.task t))
    (hawait : awaitTask t.id = .ok res) :
    get_remote_resource jsonParse awaitTask cache k conv =
      ⟨inspect_status jsonParse conv res, cacheInsert cache k (.response res), 1⟩ ∧
    get_remote_resource jsonParse awaitTask (cacheInsert cache k (.response res)) k conv =
      ⟨inspect_status jsonParse conv res, cacheInsert cache k (.response res), 0⟩ := by
  constructor
  · simp [get_remote_resource, hfind, hawait]
  · simp [get_remote_resource, cacheFind?_insert_self]

theorem claim_C1_witness :
    get_remote_resource (fun _ => J.null) (fun _ => Except.ok ⟨200, "", "u"⟩)
        [("waka", .task ⟨0, false⟩)] "waka" none =
      ⟨inspect_status (fun _ => J.null) none ⟨200, "", "u"⟩,
       cacheInsert [("waka", .task ⟨0, false⟩)] "waka" (.response ⟨200, "", "u"⟩), 1⟩ ∧
    get_remote_resource (fun _ => J.null) (fun _ => Except.ok ⟨200, "", "u"⟩)
        (cacheInsert [("waka", .task ⟨0, false⟩)] "waka" (.response ⟨200, "", "u"⟩)) "waka" none =
      ⟨inspect_status (fun _ => J.null) none ⟨200, "", "u"⟩,
       cacheInsert [("waka", .task ⟨0, false⟩)] "waka" (.response ⟨200, "", "u"⟩), 0⟩ :=
  claim_C1_resolve_twice_one_network (fun _ => J.null) (fun _ => Except.ok ⟨200, "", "u"⟩)
    [("waka", .task ⟨0, false⟩)] "waka" ⟨0, false⟩ none ⟨200, "", "u"⟩ rfl rfl

/-- C6: once a settled response is in the cache, resolution inspects the
status: 200 returns the converted body (JSON parse when no converter is
supplied, the supplied converter otherwise), 201 and 202 return no data
without raising, and every other status raises carrying the URL, the
status code and the response body. -/
theorem claim_C6_status_inspection (jsonParse : String → J)
    (awaitTask : Nat → Except String Response) (cache : Cache) (k : String)
    (conv : Option (String → J)) (res : Response)
    (hfind : cacheFind? cache k = some (.response res)) :
    (res.status_code = 200 →
      get_remote_resource jsonParse awaitTask cache k conv =
        ⟨.ok (some ((conv.getD jsonParse) res.content)), cache, 0⟩) ∧
    (res.status_code = 201 ∨ res.status_code = 202 →
      get_remote_resource jsonParse awaitTask cache k conv = ⟨.ok none, cache, 0⟩) ∧
    (res.status_code ≠ 200 → res.status_code ≠ 201 → res.status_code ≠ 202 →
      get_remote_resource jsonParse awaitTask cache k conv =
        ⟨.error (.badStatus res.url res.status_code (jsonParse res.content)), cache, 0⟩) := by
  refine ⟨?_, ?_, ?_⟩
  · intro h200
    simp only [get_remote_resource, hfind, inspect_status, h200, if_pos rfl]
    cases conv <;> rfl
  · intro h
    rcases h with h | h <;> simp [get_remote_resource, hfind, inspect_status, h]
  · intro h1 h2 h3
    simp [get_remote_resource, hfind, inspect_status, h1, h2, h3]

theorem claim_C6_witness :
    get_remote_resource (fun _ => J.null) (fun _ => Except.error "down")
        [("gh", .response ⟨201, "", "u"⟩)] "gh" none = ⟨.ok none, [("gh", .response ⟨201, "", "u"⟩)], 0⟩ :=
  (claim_C6_status_inspection (fun _ => J.null) (fun _ => Except.error "down")
    [("gh", .response ⟨201, "", "u"⟩)] "gh" none ⟨201, "", "u"⟩ rfl).2.1 (Or.inl rfl)

/-- C9: resolving a key that was never registered raises a `KeyError`
before any network operation or status handling, and leaves the cache
unchanged. -/
theorem claim_C9_unregistered_key_error (jsonParse : String → J)
    (awaitTask : Nat → Except String Response) (cache : Cache) (k : String)
    (conv : Option (String → J))
    (hnone : cacheFind? cache k = none) :
    get_remote_resource jsonParse awaitTask cache k conv =
      ⟨.error (.keyError k), cache, 0⟩ := by
  simp [get_remote_resource, hnone]

theorem claim_C9_witness :
    get_remote_resource (fun _ => J.null) (fun _ => Except.ok ⟨200, "", "u"⟩)
        [] "linguist" none = ⟨.error (.keyError "linguist"), [], 0⟩ :=
  claim_C9_unregistered_key_error (fun _ => J.null) (fun _ => Except.ok ⟨200, "", "u"⟩)
    [] "linguist" none rfl

/-- C8 (code bug): on the very cache of the claim — one never-awaited
pending entry followed by one settled entry — the drain does not complete
without raising.  The pending task is cancelled and awaited; the await
raises `CancelledError`, which on Python 3.8 and later derives from
`BaseException` and therefore escapes both `except Exception` handlers,
aborting the loop before the settled entry is even reached (first
conjunct, escape flag `true`).  Only `Exception`-derived await failures
are swallowed as the claim describes, completing the drain with no action
on the settled entry (second conjunct, escape flag `false`). -/
theorem claim_C8_drain_cancelled_escapes (awaitTask awaitTask2 : Nat → AwaitOutcome)
    (k1 k2 : String) (i : Nat) (r : Response) (e : String)
    (hcancel : awaitTask i = .cancelled)
    (hexc : awaitTask2 i = .exc e) :
    close_remote_resources awaitTask [(k1, .task ⟨i, false⟩), (k2, .response r)] =
      ([.cancel i, .awaited i], true) ∧
    close_remote_resources awaitTask2 [(k1, .task ⟨i, false⟩), (k2, .response r)] =
      ([.cancel i, .awaited i], false) := by
  constructor
  · simp [close_remote_resources, drain_entry, hcancel]
  · simp [close_remote_resources, drain_entry, hexc]

theorem claim_C8_witness :
    close_remote_resources (fun _ => AwaitOutcome.cancelled)
        [("waka", .task ⟨0, false⟩), ("gh", .response ⟨200, "", "u"⟩)] =
      ([.cancel 0, .awaited 0], true) ∧
    close_remote_resources (fun _ => AwaitOutcome.exc "connect error")
        [("waka", .task ⟨0, false⟩), ("gh", .response ⟨200, "", "u"⟩)] =
      ([.cancel 0, .awaited 0], false) :=
  claim_C8_drain_cancelled_escapes (fun _ => AwaitOutcome.cancelled)
    (fun _ => AwaitOutcome.exc "connect error") "waka" "gh" 0 ⟨200, "", "u"⟩
    "connect error" rfl rfl

/-- C7: failures propagate and record nothing.  If awaiting a pending
plain-resource entry fails, the exception is re-raised and the cache is
left exactly as it was (the entry is not replaced by a settled value); if
a GraphQL fetch (paginated or not) raises, `get_remote_graphql` stores no
entry under the fingerprint and returns the error, so partially
accumulated pages are discarded with the cache unchanged. -/
theorem claim_C7_failure_not_recorded (jsonParse : String → J)
    (awaitTask : Nat → Except String Response) (cache : Cache) (k : String)
    (t : TaskHandle) (conv : Option (String → J)) (e : String)
    (gql : Nat → GResp) (cache2 : Cache) (query : String)
    (kwargs : List (String × String)) (fuel i : Nat) (e2 : GErr) :
    ((cacheFind? cache k = some (.task t)) → awaitTask t.id = .error e →
      get_remote_resource jsonParse awaitTask cache k conv =
        ⟨.error (.network e), cache, 1⟩) ∧
    ((cacheFind? cache2 (cacheKeyOf query kwargs) = none) →
      (get_remote_graphql gql cache2 query kwargs fuel i).result = .error e2 →
      (get_remote_graphql gql cache2 query kwargs fuel i).cache = cache2) := by
  constructor
  · intro hfind hfail
    simp [get_remote_resource, hfind, hfail]
  · intro hmiss herr
    cases hq : GITHUB_API_QUERIES query with
    | none => simp [get_remote_graphql, hmiss, hq]
    | some tmpl =>
        rcases hfetch : (if strContains tmpl "$pagination"
            then fetch_graphql_paginated gql query kwargs fuel i
            else fetch_graphql_query gql query kwargs 10 i) with ⟨out, i2, sent⟩
        cases out with
        | ok v =>
            exfalso
            simp [get_remote_graphql, hmiss, hq, hfetch] at herr
        | error e3 =>
            simp [get_remote_graphql, hmiss, hq, hfetch]

theorem claim_C7_witness :
    (get_remote_resource (fun _ => J.null) (fun _ => Except.error "timeout")
        [("waka", .task ⟨0, false⟩)] "waka" none =
      ⟨.error (.network "timeout"), [("waka", .task ⟨0, false⟩)], 1⟩) ∧
    ((get_remote_graphql (fun _ => ⟨404, J.null⟩) [] "user_repository_list"
        [("username", "octo")] 5 0).cache = []) :=
  ⟨(claim_C7_failure_not_recorded (fun _ => J.null) (fun _ => Except.error "timeout")
      [("waka", .task ⟨0, false⟩)] "waka" ⟨0, false⟩ none "timeout"
      (fun _ => ⟨404, J.null⟩) [] "user_repository_list" [("username", "octo")] 5 0
      (.queryFailed "user_repository_list" 404 J.null)).1 rfl rfl,
   (claim_C7_failure_not_recorded (fun _ => J.null) (fun _ => Except.error "timeout")
      [("waka", .task ⟨0, false⟩)] "waka" ⟨0, false⟩ none "timeout"
      (fun _ => ⟨404, J.null⟩) [] "user_repository_list" [("username", "octo")] 5 0
      (.queryFailed "user_repository_list" 404 J.null)).2 rfl (by rfl)⟩

/-- C2 (counterexample): a response whose first and only sub-object
carries both `"nodes"` and `"pageInfo"`, but with an empty node list and a
false has-more flag, is skipped by the acceptance test on recursive
results: the function returns the fallback, not the page-info of that sub-object (which holds an `endCursor` the fallback lacks). -/
theorem claim_C2_counterexample :
    findPageData (J.obj (.cons "a" (J.obj (.cons "nodes" (J.arr .nil)
        (.cons "pageInfo" (J.obj (.cons "endCursor" (J.str "c0")
          (.cons "hasNextPage" (J.bool false) .nil))) .nil))) .nil)) = noPageFound ∧
    noPageFound.2 ≠ J.obj (.cons "endCursor" (J.str "c0")
        (.cons "hasNextPage" (J.bool false) .nil)) := by
  constructor
  · rfl
  · decide

/-- C2 (amended): for matches nested at depth 1, 2 or 3 below the root and
mixed with scalar sibling keys, `findPageData` returns the items and
page-info of the matching sub-object provided the match is accepted (its
item list is non-empty, or its page-info has a truthy has-more flag); and
for every response in which no sub-object anywhere carries both fields, it
returns the empty list together with `hasNextPage = false`. -/
theorem claim_C2_first_match_depth123 (ns pi s1 s2 s3 : J)
    (hacc : acceptPage (ns, pi) = true)
    (hs1 : isScalarJ s1 = true) (hs2 : isScalarJ s2 = true) (hs3 : isScalarJ s3 = true) :
    findPageData (J.obj (.cons "sib1" s1 (.cons "wrap1"
        (J.obj (.cons "nodes" ns (.cons "pageInfo" pi .nil))) .nil))) = (ns, pi) ∧
    findPageData (J.obj (.cons "sib1" s1 (.cons "wrap1"
        (J.obj (.cons "sib2" s2 (.cons "wrap2"
          (J.obj (.cons "nodes" ns (.cons "pageInfo" pi .nil))) .nil))) .nil))) = (ns, pi) ∧
    findPageData (J.obj (.cons "sib1" s1 (.cons "wrap1"
        (J.obj (.cons "sib2" s2 (.cons "wrap2"
          (J.obj (.cons "sib3" s3 (.cons "wrap3"
            (J.obj (.cons "nodes" ns (.cons "pageInfo" pi .nil))) .nil))) .nil))) .nil))) = (ns, pi) ∧
    (∀ v : J, hasMatch v = false → findPageData v = noPageFound) := by
  have htarget : findPageData (J.obj (.cons "nodes" ns (.cons "pageInfo" pi .nil))) = (ns, pi) :=
    findPageData_target ns pi
  have hacc0 : acceptPage (findPageData (J.obj (.cons "nodes" ns (.cons "pageInfo" pi .nil)))) = true := by
    rw [htarget]; exact hacc
  have hd1 : findPageData (J.obj (.cons "sib2" s2 (.cons "wrap2"
      (J.obj (.cons "nodes" ns (.cons "pageInfo" pi .nil))) .nil))) = (ns, pi) := by
    rw [findPageData_wrapper "sib2" "wrap2" s2 _ hs2 (by decide) (by decide) hacc0, htarget]
  have hacc1 : acceptPage (findPageData (J.obj (.cons "sib2" s2 (.cons "wrap2"
      (J.obj (.cons "nodes" ns (.cons "pageInfo" pi .nil))) .nil)))) = true := by
    rw [hd1]; exact hacc
  have hd2 : findPageData (J.obj (.cons "sib3" s3 (.cons "wrap3"
      (J.obj (.cons "nodes" ns (.cons "pageInfo" pi .nil))) .nil))) = (ns, pi) := by
    rw [findPageData_wrapper "sib3" "wrap3" s3 _ hs3 (by decide) (by decide) hacc0, htarget]
  have hacc2 : acceptPage (findPageData (J.obj (.cons "sib3" s3 (.cons "wrap3"
      (J.obj (.cons "nodes" ns (.cons "pageInfo" pi .nil))) .nil)))) = true := by
    rw [hd2]; exact hacc
  have hinner3 : findPageData (J.obj (.cons "sib2" s2 (.cons "wrap2"
      (J.obj (.cons "sib3" s3 (.cons "wrap3"
        (J.obj (.cons "nodes" ns (.cons "pageInfo" pi .nil))) .nil))) .nil))) = (ns, pi) := by
    rw [findPageData_wrapper "sib2" "wrap2" s2 _ hs2 (by decide) (by decide) hacc2, hd2]
  have hacc3 : acceptPage (findPageData (J.obj (.cons "sib2" s2 (.cons "wrap2"
      (J.obj (.cons "sib3" s3 (.cons "wrap3"
        (J.obj (.cons "nodes" ns (.cons "pageInfo" pi .nil))) .nil))) .nil)))) = true := by
    rw [hinner3]; exact hacc
  refine ⟨?_, ?_, ?_, findPageData_of_no_match⟩
  · rw [findPageData_wrapper "sib1" "wrap1" s1 _ hs1 (by decide) (by decide) hacc0, htarget]
  · rw [findPageData_wrapper "sib1" "wrap1" s1 _ hs1 (by decide) (by decide) hacc1, hd1]
  · rw [findPageData_wrapper "sib1" "wrap1" s1 _ hs1 (by decide) (by decide) hacc3, hinner3]

theorem claim_C2_witness :
    findPageData (J.obj (.cons "sib1" (J.str "x") (.cons "wrap1"
        (J.obj (.cons "nodes" (J.arr (.cons (J.num 7) .nil))
          (.cons "pageInfo" (J.obj (.cons "hasNextPage" (J.bool false) .nil)) .nil))) .nil))) =
      (J.arr (.cons (J.num 7) .nil), J.obj (.cons "hasNextPage" (J.bool false) .nil)) ∧
    findPageData (J.str "nothing") = noPageFound :=
  ⟨(claim_C2_first_match_depth123 (J.arr (.cons (J.num 7) .nil))
      (J.obj (.cons "hasNextPage" (J.bool false) .nil)) (J.str "x") (J.str "y") (J.str "z")
      (by decide) (by decide) (by decide) (by decide)).1,
   (claim_C2_first_match_depth123 (J.arr (.cons (J.num 7) .nil))
      (J.obj (.cons "hasNextPage" (J.bool false) .nil)) (J.str "x") (J.str "y") (J.str "z")
      (by decide) (by decide) (by decide) (by decide)).2.2.2 (J.str "nothing") (by decide)⟩

/-- C10: on a page in which no sub-object carries both fields, the search
returns exactly the page-info `hasNextPage = false`, so the
`page_info["hasNextPage"]` lookup in the pagination loop succeeds, the
flag is falsy, and the loop exits at once: no error, no further requests,
and the accumulated list is returned unchanged. -/
theorem claim_C10_fallback_stops_loop (v : J) (gql : Nat → GResp) (query : String)
    (kwargs : List (String × String)) (fuel i : Nat) (acc : J)
    (hnm : hasMatch v = false) :
    findPageData v = (J.arr .nil, J.obj (.cons "hasNextPage" (.bool false) .nil)) ∧
    fetch_paginated_loop gql query kwargs (fuel + 1) acc (findPageData v).2 i =
      ⟨.ok acc, i, []⟩ := by
  have h := findPageData_of_no_match v hnm
  refine ⟨h, ?_⟩
  rw [h]
  simp [fetch_paginated_loop, jIndex, JFields.find?, J.truthy, noPageFound]

theorem claim_C10_witness :
    findPageData (J.obj (.cons "data" (J.obj (.cons "user" J.null .nil)) .nil)) =
      (J.arr .nil, J.obj (.cons "hasNextPage" (.bool false) .nil)) ∧
    fetch_paginated_loop (fun _ => ⟨200, J.null⟩) "repo_branch_list" [] 1 (J.arr .nil)
      (findPageData (J.obj (.cons "data" (J.obj (.cons "user" J.null .nil)) .nil))).2 0 =
      ⟨.ok (J.arr .nil), 0, []⟩ :=
  claim_C10_fallback_stops_loop (J.obj (.cons "data" (J.obj (.cons "user" J.null .nil)) .nil))
    (fun _ => ⟨200, J.null⟩) "repo_branch_list" [] 0 0 (J.arr .nil) (by decide)

/-- C4: the GraphQL query operation retries only on 502, immediately, with
a fixed budget of 10 retries.  A transport answering 502 three times and
then 200 yields the 200 payload (four requests sent); a transport
answering 502 eleven times in a row exhausts the budget and raises the
error carrying query name, status and body (eleven requests sent); any
other non-200 status raises the same error shape at once, with exactly one
request sent. -/
theorem claim_C4_retry_on_502 (query tmpl : String) (kwargs : List (String × String))
    (b p : J) (s : Nat)
    (hq : GITHUB_API_QUERIES query = some tmpl) :
    (fetch_graphql_query (fun i => if i < 3 then ⟨502, b⟩ else ⟨200, p⟩) query kwargs 10 0 =
      ⟨.ok p, 4, List.replicate 4 ⟨query, kwargs⟩⟩) ∧
    (fetch_graphql_query (fun _ => ⟨502, b⟩) query kwargs 10 0 =
      ⟨.error (.queryFailed query 502 b), 11, List.replicate 11 ⟨query, kwargs⟩⟩) ∧
    (s ≠ 200 → s ≠ 502 →
      fetch_graphql_query (fun _ => ⟨s, b⟩) query kwargs 10 0 =
        ⟨.error (.queryFailed query s b), 1, [⟨query, kwargs⟩]⟩) := by
  refine ⟨?_, ?_, ?_⟩
  · simp [fetch_graphql_query, hq, List.replicate]
  · simp [fetch_graphql_query, hq, List.replicate]
  · intro h200 h502
    simp [fetch_graphql_query, hq, h200, h502]

theorem claim_C4_witness :
    (fetch_graphql_query (fun i => if i < 3 then ⟨502, J.null⟩ else ⟨200, J.num 1⟩)
        "user_repository_list" [] 10 0 =
      ⟨.ok (J.num 1), 4, List.replicate 4 ⟨"user_repository_list", []⟩⟩) ∧
    (fetch_graphql_query (fun _ => ⟨502, J.null⟩) "user_repository_list" [] 10 0 =
      ⟨.error (.queryFailed "user_repository_list" 502 J.null), 11,
       List.replicate 11 ⟨"user_repository_list", []⟩⟩) ∧
    (fetch_graphql_query (fun _ => ⟨403, J.null⟩) "user_repository_list" [] 10 0 =
      ⟨.error (.queryFailed "user_repository_list" 403 J.null), 1,
       [⟨"user_repository_list", []⟩]⟩) := by
  have h := claim_C4_retry_on_502 "user_repository_list" tmpl_user_repository_list []
    J.null (J.num 1) 403 rfl
  exact ⟨h.1, h.2.1, h.2.2 (by decide) (by decide)⟩

/-- Page-info object of a synthetic GraphQL page. -/
def mkPageInfo (cursor : String) (more : Bool) : J :=
  J.obj (.cons "endCursor" (J.str cursor) (.cons "hasNextPage" (J.bool more) .nil))

/-- Synthetic one-page GraphQL response, with the paginated object nested
three levels deep as in the `user_repository_list` query. -/
def mkPageResp (items : JList) (cursor : String) (more : Bool) : J :=
  J.obj (.cons "data" (J.obj (.cons "user" (J.obj (.cons "repositories"
    (J.obj (.cons "nodes" (J.arr items)
      (.cons "pageInfo" (mkPageInfo cursor more) .nil))) .nil)) .nil)) .nil)

theorem findPageData_mkPageResp (items : JList) (cursor : String) (more : Bool)
    (h : acceptPage (J.arr items, mkPageInfo cursor more) = true) :
    findPageData (mkPageResp items cursor more) = (J.arr items, mkPageInfo cursor more) := by
  have htarget : findPageData (J.obj (.cons "nodes" (J.arr items)
      (.cons "pageInfo" (mkPageInfo cursor more) .nil))) = (J.arr items, mkPageInfo cursor more) :=
    findPageData_target _ _
  have hacc0 : acceptPage (findPageData (J.obj (.cons "nodes" (J.arr items)
      (.cons "pageInfo" (mkPageInfo cursor more) .nil)))) = true := by
    rw [htarget]; exact h
  have h1 : findPageData (J.obj (.cons "repositories" (J.obj (.cons "nodes" (J.arr items)
      (.cons "pageInfo" (mkPageInfo cursor more) .nil))) .nil)) = (J.arr items, mkPageInfo cursor more) := by
    rw [findPageData_wrapper1 "repositories" _ (by decide) hacc0, htarget]
  have hacc1 : acceptPage (findPageData (J.obj (.cons "repositories" (J.obj (.cons "nodes" (J.arr items)
      (.cons "pageInfo" (mkPageInfo cursor more) .nil))) .nil))) = true := by
    rw [h1]; exact h
  have h2 : findPageData (J.obj (.cons "user" (J.obj (.cons "repositories" (J.obj (.cons "nodes" (J.arr items)
      (.cons "pageInfo" (mkPageInfo cursor more) .nil))) .nil)) .nil)) = (J.arr items, mkPageInfo cursor more) := by
    rw [findPageData_wrapper1 "user" _ (by decide) hacc1, h1]
  have hacc2 : acceptPage (findPageData (J.obj (.cons "user" (J.obj (.cons "repositories"
      (J.obj (.cons "nodes" (J.arr items)
        (.cons "pageInfo" (mkPageInfo cursor more) .nil))) .nil)) .nil))) = true := by
    rw [h2]; exact h
  show findPageData (J.obj (.cons "data" _ .nil)) = _
  rw [findPageData_wrapper1 "data" _ (by decide) hacc2, h2]

/-- Transport of the synthetic 3-page sequence used by C3. -/
def threePageTransport (xs ys zs : JList) (c1 c2 c3 : String) : Nat → GResp
  | 0 => ⟨200, mkPageResp xs c1 true⟩
  | 1 => ⟨200, mkPageResp ys c2 true⟩
  | _ => ⟨200, mkPageResp zs c3 false⟩

/-- C3: the paginated fetch issues the first query with pagination
`first: 100`, then while the page-info has-more flag is true re-issues the
query with `first: 100, after: "<endCursor>"` using the end cursor of
the previous page, and returns the concatenation of the items of all pages in
page-fetch order; over a 3-page sequence of sizes 100, 100 and 37 with
has-more true, true, false it returns one list of 237 items. -/
theorem claim_C3_paginated_flatten (xs ys zs : JList) (c1 c2 c3 u : String)
    (hx : xs.length = 100) (hy : ys.length = 100) (hz : zs.length = 37) :
    fetch_graphql_paginated (threePageTransport xs ys zs c1 c2 c3)
      "user_repository_list" [("username", u)] 3 0 =
      ⟨.ok (J.arr ((xs.append ys).append zs)), 3,
       [⟨"user_repository_list", [("username", u), ("pagination", "first: 100")]⟩,
        ⟨"user_repository_list",
         [("username", u), ("pagination", "first: 100, after: \"" ++ c1 ++ "\"")]⟩,
        ⟨"user_repository_list",
         [("username", u), ("pagination", "first: 100, after: \"" ++ c2 ++ "\"")]⟩]⟩ ∧
    ((xs.append ys).append zs).length = 237 := by
  have hzs : zs ≠ .nil := by
    intro hcon
    rw [hcon] at hz
    simp [JList.length] at hz
  have hp1 : findPageData (mkPageResp xs c1 true) = (J.arr xs, mkPageInfo c1 true) :=
    findPageData_mkPageResp xs c1 true (by simp [acceptPage, mkPageInfo, J.getD, JFields.find?, J.truthy])
  have hp2 : findPageData (mkPageResp ys c2 true) = (J.arr ys, mkPageInfo c2 true) :=
    findPageData_mkPageResp ys c2 true (by simp [acceptPage, mkPageInfo, J.getD, JFields.find?, J.truthy])
  have hp3 : findPageData (mkPageResp zs c3 false) = (J.arr zs, mkPageInfo c3 false) := by
    refine findPageData_mkPageResp zs c3 false ?_
    match zs, hzs with
    | .cons a tl, _ => simp [acceptPage, J.truthy]
  constructor
  · simp [fetch_graphql_paginated, fetch_graphql_query, threePageTransport,
      GITHUB_API_QUERIES, fetch_paginated_loop, hp1, hp2, hp3, jIndex, jConcat,
      JFields.find?, J.truthy, mkPageInfo, pyStr, List.append_assoc]
  · rw [JList.length_append, JList.length_append, hx, hy, hz]

/-- Concrete JSON list of `n` copies of a value (test data builder). -/
def jlistReplicate : Nat → J → JList
  | 0, _ => .nil
  | n + 1, v => .cons v (jlistReplicate n v)

theorem claim_C3_witness :
    fetch_graphql_paginated
      (threePageTransport (jlistReplicate 100 (J.num 1)) (jlistReplicate 100 (J.num 2))
        (jlistReplicate 37 (J.num 3)) "A" "B" "C")
      "user_repository_list" [("username", "octo")] 3 0 =
      ⟨.ok (J.arr (((jlistReplicate 100 (J.num 1)).append (jlistReplicate 100 (J.num 2))).append
        (jlistReplicate 37 (J.num 3)))), 3,
       [⟨"user_repository_list", [("username", "octo"), ("pagination", "first: 100")]⟩,
        ⟨"user_repository_list",
         [("username", "octo"), ("pagination", "first: 100, after: \"" ++ "A" ++ "\"")]⟩,
        ⟨"user_repository_list",
         [("username", "octo"), ("pagination", "first: 100, after: \"" ++ "B" ++ "\"")]⟩]⟩ ∧
    (((jlistReplicate 100 (J.num 1)).append (jlistReplicate 100 (J.num 2))).append
      (jlistReplicate 37 (J.num 3))).length = 237 :=
  claim_C3_paginated_flatten (jlistReplicate 100 (J.num 1)) (jlistReplicate 100 (J.num 2))
    (jlistReplicate 37 (J.num 3)) "A" "B" "C" "octo" rfl rfl rfl

theorem head?_append_some {α : Type} {l1 l2 : List α} {x : α}
    (h : l1.head? = some x) : (l1 ++ l2).head? = some x := by
  cases l1 <;> simp_all

/-- Every request the query engine sends carries the query name and the
exact substitution parameters of the call (valid query names only). -/
theorem fetch_graphql_query_sent_head (gql : Nat → GResp) (query tmpl : String)
    (kwargs : List (String × String)) (hq : GITHUB_API_QUERIES query = some tmpl) :
    ∀ (retries i : Nat),
      (fetch_graphql_query gql query kwargs retries i).sent.head? = some ⟨query, kwargs⟩ := by
  intro retries
  induction retries with
  | zero =>
      intro i
      by_cases h2 : (gql i).status = 200 <;> simp [fetch_graphql_query, hq, h2]
  | succ r ih =>
      intro i
      by_cases h2 : (gql i).status = 200
      · simp [fetch_graphql_query, hq, h2]
      · by_cases h5 : (gql i).status = 502
        · rcases hrec : fetch_graphql_query gql query kwargs r (i + 1) with ⟨out, i2, sent⟩
          simp [fetch_graphql_query, hq, h2, h5, hrec]
        · simp [fetch_graphql_query, hq, h2, h5]

/-- The first request of a paginated fetch carries the injected
`pagination = "first: 100"` parameter. -/
theorem fetch_graphql_paginated_sent_head (gql : Nat → GResp) (query tmpl : String)
    (kwargs : List (String × String)) (fuel i : Nat)
    (hq : GITHUB_API_QUERIES query = some tmpl) :
    (fetch_graphql_paginated gql query kwargs fuel i).sent.head? =
      some ⟨query, kwargs ++ [("pagination", "first: 100")]⟩ := by
  have h0 := fetch_graphql_query_sent_head gql query tmpl
    (kwargs ++ [("pagination", "first: 100")]) hq 10 i
  rw [fetch_graphql_paginated]
  rcases hr0 : fetch_graphql_query gql query (kwargs ++ [("pagination", "first: 100")]) 10 i
    with ⟨out0, i0, sent0⟩
  rw [hr0] at h0
  cases out0 with
  | error e => simpa using h0
  | ok resp =>
      rcases hloop : fetch_paginated_loop gql query kwargs fuel (findPageData resp).1
        (findPageData resp).2 i0 with ⟨out2, i3, sent2⟩
      simpa using head?_append_some h0

/-- C5: the GraphQL cache key is a fingerprint of the query name and the
order-independent serialization of the parameters.  (A) identical
parameters under key reordering give the same key; (B) after a first
(miss) call succeeds, a second call with reordered parameters returns the
cached result with no request sent, any transport notwithstanding; (C)
parameter lists that are not rearrangements of one another (in particular,
any differing value) give distinct keys, (D) so the entry stored by the
first call is not found under the second key — the calls use distinct
cache entries; (E) a miss dispatches to the paginated fetch exactly when
the query template contains the `$pagination` placeholder (first request
carries the injected `pagination` parameter), and to the plain query
otherwise (first request carries exactly the call parameters). -/
theorem claim_C5_fingerprint_cache (query tmpl : String)
    (kw1 kw2 kwargs : List (String × String)) (gql gql2 : Nat → GResp)
    (cache cache2 : Cache) (v : J) (fuel i fuel2 i2 : Nat) :
    (kw1.Perm kw2 → (kw1.map Prod.fst).Nodup →
      cacheKeyOf query kw1 = cacheKeyOf query kw2) ∧
    (cacheFind? cache (cacheKeyOf query kw1) = none →
      (get_remote_graphql gql cache query kw1 fuel i).result = .ok v →
      kw1.Perm kw2 → (kw1.map Prod.fst).Nodup →
      get_remote_graphql gql2 (get_remote_graphql gql cache query kw1 fuel i).cache
          query kw2 fuel2 i2 =
        ⟨.ok v, (get_remote_graphql gql cache query kw1 fuel i).cache, i2, []⟩) ∧
    (¬ kw1.Perm kw2 → cacheKeyOf query kw1 ≠ cacheKeyOf query kw2) ∧
    (cacheFind? cache (cacheKeyOf query kw1) = none →
      cacheFind? cache (cacheKeyOf query kw2) = none →
      (get_remote_graphql gql cache query kw1 fuel i).result = .ok v →
      ¬ kw1.Perm kw2 →
      cacheFind? (get_remote_graphql gql cache query kw1 fuel i).cache
        (cacheKeyOf query kw2) = none) ∧
    (GITHUB_API_QUERIES query = some tmpl →
      cacheFind? cache2 (cacheKeyOf query kwargs) = none →
      (strContains tmpl "$pagination" = true →
        (get_remote_graphql gql cache2 query kwargs fuel i).sent.head? =
          some ⟨query, kwargs ++ [("pagination", "first: 100")]⟩) ∧
      (strContains tmpl "$pagination" = false →
        (get_remote_graphql gql cache2 query kwargs fuel i).sent.head? =
          some ⟨query, kwargs⟩)) := by
  have hstore : cacheFind? cache (cacheKeyOf query kw1) = none →
      (get_remote_graphql gql cache query kw1 fuel i).result = .ok v →
      (get_remote_graphql gql cache query kw1 fuel i).cache =
        cacheInsert cache (cacheKeyOf query kw1) (.result v) := by
    intro hmiss hok
    cases hq2 : GITHUB_API_QUERIES query with
    | none => simp [get_remote_graphql, hmiss, hq2] at hok
    | some t2 =>
        rcases hfetch : (if strContains t2 "$pagination"
            then fetch_graphql_paginated gql query kw1 fuel i
            else fetch_graphql_query gql query kw1 10 i) with ⟨out, i3, sent⟩
        cases out with
        | ok w =>
            have hw : w = v := by
              simpa [get_remote_graphql, hmiss, hq2, hfetch] using hok
            subst hw
            simp [get_remote_graphql, hmiss, hq2, hfetch]
        | error e =>
            simp [get_remote_graphql, hmiss, hq2, hfetch] at hok
  refine ⟨fun hp hnd => cacheKeyOf_eq_of_perm query hp hnd, ?_, ?_, ?_, ?_⟩
  · intro hmiss hok hp hnd
    have hc := hstore hmiss hok
    have hkey : cacheKeyOf query kw2 = cacheKeyOf query kw1 :=
      (cacheKeyOf_eq_of_perm query hp hnd).symm
    have hhit : cacheFind? (get_remote_graphql gql cache query kw1 fuel i).cache
        (cacheKeyOf query kw2) = some (.result v) := by
      rw [hc, hkey]
      exact cacheFind?_insert_self cache (cacheKeyOf query kw1) (.result v)
    generalize (get_remote_graphql gql cache query kw1 fuel i).cache = C1 at hhit ⊢
    simp [get_remote_graphql, hhit, entryVal]
  · exact fun hnp => cacheKeyOf_ne_of_not_perm query hnp
  · intro hmiss1 hmiss2 hok hnp
    have hc := hstore hmiss1 hok
    rw [hc, cacheFind?_insert_ne cache _ _ _ (cacheKeyOf_ne_of_not_perm query hnp)]
    exact hmiss2
  · intro hq hmiss3
    constructor
    · intro hpag
      have hhead := fetch_graphql_paginated_sent_head gql query tmpl kwargs fuel i hq
      rcases hfetch : fetch_graphql_paginated gql query kwargs fuel i with ⟨out, i3, sent⟩
      rw [hfetch] at hhead
      cases out with
      | ok w => simpa [get_remote_graphql, hmiss3, hq, hpag, hfetch] using hhead
      | error e => simpa [get_remote_graphql, hmiss3, hq, hpag, hfetch] using hhead
    · intro hpag
      have hhead := fetch_graphql_query_sent_head gql query tmpl kwargs hq 10 i
      rcases hfetch : fetch_graphql_query gql query kwargs 10 i with ⟨out, i3, sent⟩
      rw [hfetch] at hhead
      cases out with
      | ok w => simpa [get_remote_graphql, hmiss3, hq, hpag, hfetch] using hhead
      | error e => simpa [get_remote_graphql, hmiss3, hq, hpag, hfetch] using hhead

theorem claim_C5_witness :
    (cacheKeyOf "repo_branch_list" [("owner", "a"), ("name", "b")] =
      cacheKeyOf "repo_branch_list" [("name", "b"), ("owner", "a")]) ∧
    (get_remote_graphql (fun _ => ⟨500, J.null⟩)
        (get_remote_graphql (fun _ => ⟨200, J.null⟩) [] "repo_branch_list"
          [("owner", "a"), ("name", "b")] 1 0).cache
        "repo_branch_list" [("name", "b"), ("owner", "a")] 0 5 =
      ⟨.ok (J.arr .nil),
       (get_remote_graphql (fun _ => ⟨200, J.null⟩) [] "repo_branch_list"
          [("owner", "a"), ("name", "b")] 1 0).cache, 5, []⟩) ∧
    (cacheKeyOf "repo_branch_list" [("owner", "a"), ("name", "b")] ≠
      cacheKeyOf "repo_branch_list" [("owner", "x"), ("name", "b")]) ∧
    (cacheFind? (get_remote_graphql (fun _ => ⟨200, J.null⟩) [] "repo_branch_list"
        [("owner", "a"), ("name", "b")] 1 0).cache
      (cacheKeyOf "repo_branch_list" [("owner", "x"), ("name", "b")]) = none) ∧
    ((get_remote_graphql (fun _ => ⟨200, J.null⟩) [] "repo_branch_list"
        [("owner", "a"), ("name", "b")] 1 0).sent.head? =
      some ⟨"repo_branch_list", [("owner", "a"), ("name", "b")] ++ [("pagination", "first: 100")]⟩) ∧
    ((get_remote_graphql (fun _ => ⟨200, J.null⟩) [] "hide_outdated_comment"
        [("id", "z")] 1 0).sent.head? = some ⟨"hide_outdated_comment", [("id", "z")]⟩) := by
  have hswap : List.Perm [("owner", "a"), ("name", "b")] [("name", "b"), ("owner", "a")] :=
    List.Perm.swap ("name", "b") ("owner", "a") []
  have hnp : ¬ List.Perm [("owner", "a"), ("name", "b")] [("owner", "x"), ("name", "b")] := by
    intro h
    have hm := h.mem_iff (a := ("owner", "a"))
    simp at hm
  have T1 := claim_C5_fingerprint_cache "repo_branch_list" tmpl_repo_branch_list
    [("owner", "a"), ("name", "b")] [("name", "b"), ("owner", "a")]
    [("owner", "a"), ("name", "b")] (fun _ => ⟨200, J.null⟩) (fun _ => ⟨500, J.null⟩)
    [] [] (J.arr .nil) 1 0 0 5
  have T2 := claim_C5_fingerprint_cache "repo_branch_list" tmpl_repo_branch_list
    [("owner", "a"), ("name", "b")] [("owner", "x"), ("name", "b")]
    [("owner", "a"), ("name", "b")] (fun _ => ⟨200, J.null⟩) (fun _ => ⟨500, J.null⟩)
    [] [] (J.arr .nil) 1 0 0 5
  have T3 := claim_C5_fingerprint_cache "hide_outdated_comment" tmpl_hide_outdated_comment
    [("id", "z")] [("id", "z")] [("id", "z")] (fun _ => ⟨200, J.null⟩) (fun _ => ⟨500, J.null⟩)
    [] [] (J.arr .nil) 1 0 0 5
  refine ⟨T1.1 hswap (by decide), T1.2.1 rfl (by rfl) hswap (by decide),
    T2.2.2.1 hnp, T2.2.2.2.1 rfl rfl (by rfl) hnp,
    (T1.2.2.2.2 rfl rfl).1 (by rfl), (T3.2.2.2.2 rfl rfl).2 (by rfl)⟩
